import Mathlib

/-
Verification of the incremental-recompilation core of `ape`
(src/ape/managers/project/types.py): the change detector
(`_ProjectSources._check_needs_compiling`), the reference-closure expander
(`_ProjectSources.sources_needing_compilation`), the deleted-source pruning
(`_ProjectSources.remaining_cached_contract_types`) and the manifest
reconciler (`BaseProject.create_manifest` / `BaseProject._compile`).

Shallow embedding conventions:
- absolute file paths are modelled as a root folder plus a relative part
  (every path this module manipulates lives under the contracts folder);
- the filesystem is an explicit read-only state: an `is_file` predicate plus
  a partial `read` map (`none` models an unreadable file, i.e. an OSError
  raised by `Path.read_text`);
- `compute_checksum` (ethpm_types, external collaborator) is an opaque
  parameter `hashFn : String -> String -> String` taking the algorithm
  identifier and the content;
- the compile collaborator (`self.compiler_manager.compile`) is an opaque
  parameter `compileFn` returning the freshly compiled contract types;
- Python dicts are association lists with unique keys and insertion order;
  Python sets are duplicate-free lists in insertion order;
- fallible code returns `Except Unit`, where the `Unit` error stands for the
  propagated Python exception (IOError and friends).
-/

/-- Checksum stored in a cached manifest source record: hash value plus
algorithm identifier (ethpm_types `Checksum`). -/
structure Checksum where
  algorithm : String
  hash : String
deriving DecidableEq, Repr

/-- Cached manifest source record (ethpm_types `Source`): stored checksum and
the ordered list of referenced source ids (`references` may be `None`). -/
structure Source where
  checksum : Checksum
  references : Option (List String)
deriving DecidableEq, Repr

/-- Compiled artifact record (ethpm_types `ContractType`): artifact name and
originating source id (`source_id` may be `None`, e.g. for interfaces). -/
structure ContractType where
  name : String
  source_id : Option String
deriving DecidableEq, Repr

/-- The manifest (ethpm_types `PackageManifest`), restricted to the two
fields this core reads and writes: `sources` maps source id to source
record, `contract_types` maps artifact name to artifact record.  Both fields
may be `None` (the code guards with `or` and a default). -/
structure PackageManifest where
  sources : Option (List (String × Source))
  contract_types : Option (List (String × ContractType))
deriving DecidableEq, Repr

/-- An absolute file path, modelled as a root folder plus the path relative
to that root.  All paths handled by this module are below the project's
contracts folder. -/
structure FPath where
  root : String
  rel : String
deriving DecidableEq, Repr

/-- The filesystem state: `is_file p` models `p.is_file()`, and `read p`
models `p.read_text("utf8")`, with `none` for a file that cannot be read
(the raised OSError). -/
structure FS where
  is_file : FPath → Bool
  read : FPath → Option String

/-- Modelled from the spec: `ape.utils.get_relative_path` (not under src/)
returns the target path relative to the anchor folder; the source id of a
path is its path relative to the source root.  All call sites in the
embedded code pass paths whose root is the anchor. -/
def get_relative_path (target : FPath) (anchor : String) : String :=
  target.rel

/-- Models `pathlib.Path.joinpath` for a relative right operand: appending a
source id to the contracts folder. -/
def joinpath (folder : String) (s : String) : FPath :=
  FPath.mk folder s

/-- Python dict lookup (`d.get(key)` / `d[key]`) on an association list. -/
def lookupA {α : Type} : List (String × α) → String → Option α
  | [], _ => none
  | (k, v) :: rest, key => if k = key then some v else lookupA rest key

/-- Python set insertion: append the element unless already present. -/
def insertP {α : Type} [DecidableEq α] (l : List α) (p : α) : List α :=
  if p ∈ l then l else l ++ [p]

/-- Python `set.update`: insert every element of `r` into `l`. -/
def unionP {α : Type} [DecidableEq α] (l r : List α) : List α :=
  r.foldl insertP l

/-- Python `set(iterable)`: deduplicate keeping first occurrences. -/
def dedupP {α : Type} [DecidableEq α] (l : List α) : List α :=
  unionP [] l

/-- Python dict assignment `d[k] = v`: replace the entry in place if the key
is present, otherwise append it. -/
def setKey {α : Type} (l : List (String × α)) (kv : String × α) : List (String × α) :=
  if kv.1 ∈ l.map Prod.fst then
    l.map (fun p => if p.1 = kv.1 then kv else p)
  else
    l ++ [kv]

/-- Python `dict.update`: assign every entry of `upd` into `base` in order. -/
def updateA {α : Type} (base upd : List (String × α)) : List (String × α) :=
  upd.foldl setKey base

/-- Python membership test `x in s` for an `Optional[str]` value against a
set of strings: `None` is never a member. -/
def optMem (o : Option String) (l : List String) : Bool :=
  match o with
  | none => false
  | some s => decide (s ∈ l)

/-- Python `filter` with a predicate that can raise, fully consumed by the
surrounding `set(...)`: the first raised exception propagates. -/
def exceptFilter {α : Type} (f : α → Except Unit Bool) : List α → Except Unit (List α)
  | [] => Except.ok []
  | p :: rest =>
    match f p with
    | Except.error e => Except.error e
    | Except.ok b =>
      match exceptFilter f rest with
      | Except.error e => Except.error e
      | Except.ok rest_f => Except.ok (if b then p :: rest_f else rest_f)

/-- Characters stripped by Python `str.rstrip()` (ASCII whitespace; the
source files are modelled as ASCII text). -/
def isPyWhitespace (c : Char) : Bool :=
  c == ' ' || c == '\t' || c == '\n' || c == '\r' || c == Char.ofNat 11 || c == Char.ofNat 12

/-- Python `str.rstrip()`: drop trailing whitespace characters. -/
def pyRstrip (s : String) : String :=
  String.mk ((s.data.reverse.dropWhile isPyWhitespace).reverse)

/-- Lines 89-90 of types.py: strip trailing whitespace and re-append exactly
one newline when the stripped text is non-empty (Python truthiness of the
stripped string); an empty file normalizes to the empty string. -/
def pyNormalize (raw : String) : String :=
  if pyRstrip raw = "" then "" else pyRstrip raw ++ "\n"

/-- Modelled from the spec: `ethpm_types` Source.calculate_checksum
(external collaborator, read at line 83 of types.py) yields the checksum
stored in the cached record, carrying both the hash value and the algorithm
identifier. -/
def Source.calculate_checksum (s : Source) : Checksum :=
  s.checksum

/-- The `_ProjectSources` helper (types.py lines 15-31): cached manifest,
currently active source paths and the contracts folder.  The cache folder
field is omitted: it is only used for on-disk artifact bookkeeping that does
not feed any value this development reasons about. -/
structure ProjectSources where
  cached_manifest : PackageManifest
  active_sources : List FPath
  contracts_folder : String

/-- `_ProjectSources.cached_sources` (lines 33-35): `manifest.sources or` an
empty dict. -/
def cachedSources (ps : ProjectSources) : List (String × Source) :=
  ps.cached_manifest.sources.getD []

/-- The relative-path projection of the active source set (line 43). -/
def activeSourceIds (ps : ProjectSources) : List String :=
  ps.active_sources.map (fun p => get_relative_path p ps.contracts_folder)

/-- Lines 42-44: cached source ids whose relative path is absent from the
active source set. -/
def deletedSourceIds (ps : ProjectSources) : List String :=
  ((cachedSources ps).map Prod.fst).filter (fun sid => !(decide (sid ∈ activeSourceIds ps)))

/-- `_ProjectSources.remaining_cached_contract_types` (lines 37-49): keep a
cached contract type unless its source id is one of the deleted ids.  A
`None` source id is never a member of the deleted-id set, so such artifacts
are always kept. -/
def remaining_cached_contract_types (ps : ProjectSources) : List (String × ContractType) :=
  (ps.cached_manifest.contract_types.getD []).filter
    (fun nc => !(optMem nc.2.source_id (deletedSourceIds ps)))

/-- `_ProjectSources._source_reference_paths` (lines 69-74): for every cached
source id, the referenced source ids resolved to absolute paths under the
contracts folder. -/
def sourceReferencePaths (ps : ProjectSources) : List (String × List FPath) :=
  (cachedSources ps).map
    (fun kv => (kv.1, (kv.2.references.getD []).map (fun s => joinpath ps.contracts_folder s)))

/-- `_ProjectSources.get_source_reference_paths` (lines 95-96): the resolved
reference paths of a source id, restricted to paths existing on disk. -/
def get_source_reference_paths (fs : FS) (ps : ProjectSources) (source_id : String) : List FPath :=
  ((lookupA (sourceReferencePaths ps) source_id).getD []).filter fs.is_file

/-- `_ProjectSources._check_needs_compiling` (lines 76-93).  A source id
absent from the cached sources is a new file and needs compiling before any
filesystem access.  Otherwise the file is read (an unreadable file raises),
its content is normalized exactly as the cached checksum's content was, and
the checksums are compared under the cached record's algorithm.  Note line
84: `contracts_folder / source_path` with an absolute right operand is
`source_path` itself under pathlib semantics. -/
def checkNeedsCompiling (hashFn : String → String → String) (fs : FS)
    (ps : ProjectSources) (source_path : FPath) : Except Unit Bool :=
  match lookupA (cachedSources ps) (get_relative_path source_path ps.contracts_folder) with
  | none => Except.ok true
  | some cached_source =>
    match fs.read source_path with
    | none => Except.error ()
    | some raw =>
      Except.ok (hashFn (Source.calculate_checksum cached_source).algorithm (pyNormalize raw)
        != (Source.calculate_checksum cached_source).hash)

/-- Line 53: `set(filter(self._check_needs_compiling, self.active_sources))`
before deduplication — the initial changed set of the closure expansion. -/
def initialChangedSources (hashFn : String → String → String) (fs : FS)
    (ps : ProjectSources) : Except Unit (List FPath) :=
  exceptFilter (checkNeedsCompiling hashFn fs ps) ps.active_sources

/-- The `while sources_to_check_refs:` loop of lines 57-64.  One path is
popped per iteration and nothing is ever pushed onto the queue (the source
inlines the body of `get_source_reference_paths` at lines 60-62), so the
loop is structural recursion on the queue.  It threads the `needs_compile`
set and the `all_referenced_paths` list. -/
def refLoop (fs : FS) (ps : ProjectSources) :
    List FPath → List FPath → List FPath → List FPath × List FPath
  | [], needs_compile, all_referenced_paths => (needs_compile, all_referenced_paths)
  | p :: rest, needs_compile, all_referenced_paths =>
    refLoop fs ps rest
      (unionP needs_compile
        (get_source_reference_paths fs ps (get_relative_path p ps.contracts_folder)))
      (all_referenced_paths ++
        (get_source_reference_paths fs ps (get_relative_path p ps.contracts_folder)))

/-- `_ProjectSources.sources_needing_compilation` (lines 51-67): filter the
active sources through the change detector, run the reference loop seeded
with a copy of that set, fold the referenced paths back in (line 66) and
return the resulting set. -/
def sourcesNeedingCompilation (hashFn : String → String → String) (fs : FS)
    (ps : ProjectSources) : Except Unit (List FPath) :=
  match initialChangedSources hashFn fs ps with
  | Except.error e => Except.error e
  | Except.ok filtered =>
    let r := refLoop fs ps (dedupP filtered) (dedupP filtered) []
    Except.ok (unionP r.1 r.2)

/-- Modelled from the spec: `ProjectAPI.update_manifest_sources` (ape.api,
not under src/) per section 4.3 step 6 — the manifest's source map is
rebuilt with a fresh checksum entry for every given source path (keyed by
its source id, checksum over the normalized current content), and the
manifest's contract types are set to the given artifact map.  Reference
edges of the fresh records come from the compiler plugins, which are outside
this model; project name, version and compiler data are likewise omitted. -/
def update_manifest_sources (hashFn : String → String → String) (fs : FS)
    (manifest : PackageManifest) (source_paths : List FPath)
    (contracts_folder : String)
    (contract_types : List (String × ContractType)) : PackageManifest :=
  PackageManifest.mk
    (some (source_paths.map (fun p =>
      (get_relative_path p contracts_folder,
        Source.mk
          (Checksum.mk "md5" (hashFn "md5" (pyNormalize ((fs.read p).getD ""))))
          none))))
    (some contract_types)

/-- `BaseProject.create_manifest` composed with `BaseProject._compile`
(lines 172-263), restricted to the manifest value it returns: the working
artifact map starts as `remaining_cached_contract_types` (line 196), the
compile collaborator is invoked on `sources_needing_compilation`
(lines 229, 263), the fresh artifacts are merged over the surviving cached
ones (line 198), and `update_manifest_sources` is called with all the active
source paths (lines 205-212).  The cache-file pruning inside `_compile`
(lines 238-261) mutates `self._cached_manifest` and the on-disk cache only;
the local working map of line 196 was already materialized, so that
mutation does not reach the returned manifest. -/
def create_manifest (hashFn : String → String → String) (fs : FS)
    (compileFn : List FPath → List (String × ContractType))
    (manifest : PackageManifest) (source_paths : List FPath)
    (contracts_folder : String) : Except Unit PackageManifest :=
  match sourcesNeedingCompilation hashFn fs
      (ProjectSources.mk manifest source_paths contracts_folder) with
  | Except.error e => Except.error e
  | Except.ok srcs_to_compile =>
    Except.ok (update_manifest_sources hashFn fs manifest source_paths contracts_folder
      (updateA (remaining_cached_contract_types
          (ProjectSources.mk manifest source_paths contracts_folder))
        (compileFn srcs_to_compile)))

/-- Statement helper: the returned manifest has a source-map entry for the
given source id. -/
def manifestHasSourceEntry (r : Except Unit PackageManifest) (sid : String) : Bool :=
  match r with
  | Except.error _ => false
  | Except.ok m =>
    match lookupA (m.sources.getD []) sid with
    | none => false
    | some _ => true

/-
Concrete example data.  `exHash` instantiates the opaque checksum
collaborator with the identity on content, so a record's stored hash value
is simply the normalized content it was computed over.
-/

/-- Example checksum function: the digest of a content is the content
itself (the algorithm identifier is ignored). -/
def exHash : String → String → String := fun _ content => content

/-- Example absolute path of source id `A.src`. -/
def pA : FPath := FPath.mk "proj" "A.src"

/-- Example absolute path of source id `B.src`. -/
def pB : FPath := FPath.mk "proj" "B.src"

/-- Example absolute path of source id `C.src`. -/
def pC : FPath := FPath.mk "proj" "C.src"

/-- Cached manifest with reference edges A to B and B to C; A's stored hash
is stale, B's and C's match their current content. -/
def manABC : PackageManifest :=
  PackageManifest.mk
    (some [("A.src", Source.mk (Checksum.mk "md5" "OLDA") (some ["B.src"])),
           ("B.src", Source.mk (Checksum.mk "md5" "b\n") (some ["C.src"])),
           ("C.src", Source.mk (Checksum.mk "md5" "c\n") none)])
    none

/-- Filesystem for the A, B, C scenario: all three files exist and are
readable. -/
def fsABC : FS :=
  FS.mk (fun p => decide (p = pA ∨ p = pB ∨ p = pC))
    (fun p => if p = pA then some "a" else if p = pB then some "b"
      else if p = pC then some "c" else none)

/-- Project state for the A, B, C scenario: all three files active. -/
def psABC : ProjectSources := ProjectSources.mk manABC [pA, pB, pC] "proj"

/-- Filesystem for the dangling-reference scenario: `C.src` does not exist
on disk. -/
def fsDang : FS :=
  FS.mk (fun p => decide (p = pA ∨ p = pB))
    (fun p => if p = pA then some "a" else if p = pB then some "b" else none)

/-- Project state for the dangling-reference scenario: only A and B active
(C was deleted), same cached edges as `manABC`. -/
def psDang : ProjectSources := ProjectSources.mk manABC [pA, pB] "proj"

/-- Cached manifest with the cyclic reference edges A to B and B to A. -/
def manCyc : PackageManifest :=
  PackageManifest.mk
    (some [("A.src", Source.mk (Checksum.mk "md5" "OLDA") (some ["B.src"])),
           ("B.src", Source.mk (Checksum.mk "md5" "b\n") (some ["A.src"]))])
    none

/-- Filesystem for the cyclic scenario: both files exist; A's content no
longer matches its stored hash, B's does. -/
def fsCyc : FS :=
  FS.mk (fun p => decide (p = pA ∨ p = pB))
    (fun p => if p = pA then some "a" else if p = pB then some "b" else none)

/-- Project state for the cyclic scenario. -/
def psCyc : ProjectSources := ProjectSources.mk manCyc [pA, pB] "proj"

/-- Example path of a source id absent from every cached manifest below. -/
def pN : FPath := FPath.mk "proj" "N.src"

/-- Empty cached manifest (first build). -/
def manN : PackageManifest := PackageManifest.mk none none

/-- Filesystem on which every read fails: even so, a new file must be
classified as needing compilation without raising. -/
def fsN : FS := FS.mk (fun _ => true) (fun _ => none)

/-- Project state with the single new file `N.src`. -/
def psN : ProjectSources := ProjectSources.mk manN [pN] "proj"

/-- Example path of a cached source whose file is unreadable. -/
def pU : FPath := FPath.mk "proj" "U.src"

/-- Cached manifest holding a record for `U.src`. -/
def manU : PackageManifest :=
  PackageManifest.mk (some [("U.src", Source.mk (Checksum.mk "md5" "u\n") none)]) none

/-- Project state for the unreadable cached file scenario (reads fail on
`fsN`). -/
def psU : ProjectSources := ProjectSources.mk manU [pU] "proj"

/-- Example path of a cached source that was deleted from the active set. -/
def pD : FPath := FPath.mk "proj" "D.src"

/-- Cached manifest for the deletion scenario: sources `A.src` (still
active, unchanged) and `D.src` (deleted); artifacts `CA` from `A.src`, `CD`
from `D.src` and `CI` with no originating source. -/
def manDel : PackageManifest :=
  PackageManifest.mk
    (some [("A.src", Source.mk (Checksum.mk "md5" "a\n") none),
           ("D.src", Source.mk (Checksum.mk "md5" "d\n") none)])
    (some [("CA", ContractType.mk "CA" (some "A.src")),
           ("CD", ContractType.mk "CD" (some "D.src")),
           ("CI", ContractType.mk "CI" none)])

/-- Filesystem for the deletion scenario: only `A.src` exists, with content
matching its cached checksum. -/
def fsDel : FS :=
  FS.mk (fun p => decide (p = pA)) (fun p => if p = pA then some "a" else none)

/-- Project state for the deletion scenario: only A active. -/
def psDel : ProjectSources := ProjectSources.mk manDel [pA] "proj"

/-- Compile collaborator that produces no artifacts. -/
def compileNone : List FPath → List (String × ContractType) := fun _ => []

/-- The manifest returned by `create_manifest` on the deletion scenario. -/
def mDel : PackageManifest :=
  update_manifest_sources exHash fsDel manDel [pA] "proj"
    (updateA (remaining_cached_contract_types psDel) (compileNone []))

/-- Cached manifest for the partial-compile-failure scenario: `A.src` and
`B.src` both cached with stale hashes (so both need recompiling), no cached
artifacts. -/
def manPart : PackageManifest :=
  PackageManifest.mk
    (some [("A.src", Source.mk (Checksum.mk "md5" "OLDA") none),
           ("B.src", Source.mk (Checksum.mk "md5" "OLDB") none)])
    none

/-- Filesystem for the partial-failure scenario: both files exist and are
readable. -/
def fsPart : FS :=
  FS.mk (fun p => decide (p = pA ∨ p = pB))
    (fun p => if p = pA then some "a" else if p = pB then some "b" else none)

/-- Project state for the partial-failure scenario. -/
def psPart : ProjectSources := ProjectSources.mk manPart [pA, pB] "proj"

/-- The artifact the compile collaborator produces for `A.src`. -/
def ctCA : ContractType := ContractType.mk "CA" (some "A.src")

/-- Compile collaborator that succeeds for `A.src` (one artifact) and fails
for `B.src` (no artifact returned for it). -/
def compilePart : List FPath → List (String × ContractType) := fun _ => [("CA", ctCA)]

/-- The manifest returned by `create_manifest` on the partial-failure
scenario. -/
def mPart : PackageManifest :=
  update_manifest_sources exHash fsPart manPart [pA, pB] "proj"
    (updateA (remaining_cached_contract_types psPart) (compilePart [pA, pB]))

/-- Cached source record of `F.src`: checksum stored over the normalized
content of the word foo followed by one newline. -/
def srcFoo : Source := Source.mk (Checksum.mk "md5" "foo\n") none

/-- Example path of the cached source `F.src`. -/
def pF : FPath := FPath.mk "proj" "F.src"

/-- Cached manifest holding the record of `F.src`. -/
def manFoo : PackageManifest := PackageManifest.mk (some [("F.src", srcFoo)]) none

/-- Filesystem whose copy of `F.src` ends in a trailing space and has no
trailing newline. -/
def fsFoo : FS := FS.mk (fun p => decide (p = pF)) (fun p => if p = pF then some "foo " else none)

/-- Project state for the trailing-whitespace scenario. -/
def psFoo : ProjectSources := ProjectSources.mk manFoo [pF] "proj"

/-
Helper lemmas about the Python-set and Python-dict models.
-/

/-- Membership in a Python-set insertion. -/
theorem mem_insertP {α : Type} [DecidableEq α] (l : List α) (p x : α) :
    x ∈ insertP l p ↔ x ∈ l ∨ x = p := by
  unfold insertP
  by_cases h : p ∈ l
  · rw [if_pos h]
    constructor
    · exact Or.inl
    · rintro (hx | rfl)
      · exact hx
      · exact h
  · rw [if_neg h]
    simp [List.mem_append]

/-- Membership in a Python-set update. -/
theorem mem_unionP {α : Type} [DecidableEq α] (r : List α) :
    ∀ (l : List α) (x : α), x ∈ unionP l r ↔ x ∈ l ∨ x ∈ r := by
  induction r with
  | nil => intro l x; simp [unionP]
  | cons a t ih =>
    intro l x
    have hstep : unionP l (a :: t) = unionP (insertP l a) t := rfl
    rw [hstep, ih, mem_insertP, List.mem_cons]
    tauto

/-- Membership in a Python-set construction. -/
theorem mem_dedupP {α : Type} [DecidableEq α] (l : List α) (x : α) :
    x ∈ dedupP l ↔ x ∈ l := by
  unfold dedupP
  rw [mem_unionP]
  simp

/-- The first component of the reference loop collects the seed set plus the
on-disk reference paths of every queued path. -/
theorem mem_refLoop_fst (fs : FS) (ps : ProjectSources) :
    ∀ (queue needs refs : List FPath) (x : FPath),
      x ∈ (refLoop fs ps queue needs refs).1 ↔
        x ∈ needs ∨ ∃ q ∈ queue,
          x ∈ get_source_reference_paths fs ps (get_relative_path q ps.contracts_folder) := by
  intro queue
  induction queue with
  | nil => intro needs refs x; simp [refLoop]
  | cons p rest ih =>
    intro needs refs x
    simp only [refLoop]
    rw [ih, mem_unionP]
    constructor
    · rintro ((h | h) | ⟨q, hq, hx⟩)
      · exact Or.inl h
      · exact Or.inr ⟨p, List.mem_cons_self p rest, h⟩
      · exact Or.inr ⟨q, List.mem_cons_of_mem p hq, hx⟩
    · rintro (h | ⟨q, hq, hx⟩)
      · exact Or.inl (Or.inl h)
      · rcases List.mem_cons.mp hq with rfl | hq2
        · exact Or.inl (Or.inr hx)
        · exact Or.inr ⟨q, hq2, hx⟩

/-- The second component of the reference loop collects the accumulator plus
the on-disk reference paths of every queued path. -/
theorem mem_refLoop_snd (fs : FS) (ps : ProjectSources) :
    ∀ (queue needs refs : List FPath) (x : FPath),
      x ∈ (refLoop fs ps queue needs refs).2 ↔
        x ∈ refs ∨ ∃ q ∈ queue,
          x ∈ get_source_reference_paths fs ps (get_relative_path q ps.contracts_folder) := by
  intro queue
  induction queue with
  | nil => intro needs refs x; simp [refLoop]
  | cons p rest ih =>
    intro needs refs x
    simp only [refLoop]
    rw [ih, List.mem_append]
    constructor
    · rintro ((h | h) | ⟨q, hq, hx⟩)
      · exact Or.inl h
      · exact Or.inr ⟨p, List.mem_cons_self p rest, h⟩
      · exact Or.inr ⟨q, List.mem_cons_of_mem p hq, hx⟩
    · rintro (h | ⟨q, hq, hx⟩)
      · exact Or.inl (Or.inl h)
      · rcases List.mem_cons.mp hq with rfl | hq2
        · exact Or.inl (Or.inr hx)
        · exact Or.inr ⟨q, hq2, hx⟩

/-- Characterization of a successful run of the raising filter: an element
is kept exactly when it is in the input and the predicate returns true. -/
theorem exceptFilter_ok_iff {α : Type} (f : α → Except Unit Bool) :
    ∀ (l r : List α), exceptFilter f l = Except.ok r →
      ∀ x, x ∈ r ↔ x ∈ l ∧ f x = Except.ok true := by
  intro l
  induction l with
  | nil =>
    intro r h x
    simp only [exceptFilter, Except.ok.injEq] at h
    subst h
    simp
  | cons p rest ih =>
    intro r h x
    unfold exceptFilter at h
    split at h
    · exact Except.noConfusion h
    · rename_i b hfp
      split at h
      · exact Except.noConfusion h
      · rename_i rest_f hrest
        simp only [Except.ok.injEq] at h
        subst h
        cases b with
        | true =>
          rw [if_pos rfl, List.mem_cons, List.mem_cons, ih rest_f hrest x]
          constructor
          · rintro (rfl | ⟨hx, hfx⟩)
            · exact ⟨Or.inl rfl, hfp⟩
            · exact ⟨Or.inr hx, hfx⟩
          · rintro ⟨(rfl | hx), hfx⟩
            · exact Or.inl rfl
            · exact Or.inr ⟨hx, hfx⟩
        | false =>
          rw [if_neg (by simp), ih rest_f hrest x, List.mem_cons]
          constructor
          · rintro ⟨hx, hfx⟩
            exact ⟨Or.inr hx, hfx⟩
          · rintro ⟨(rfl | hx), hfx⟩
            · rw [hfp] at hfx
              exact absurd hfx (by simp)
            · exact ⟨hx, hfx⟩

/-- Unfolding of a successful `sources_needing_compilation` run in terms of
the initial changed set. -/
theorem sourcesNeedingCompilation_eq (hashFn : String → String → String) (fs : FS)
    (ps : ProjectSources) (filtered : List FPath)
    (hf : initialChangedSources hashFn fs ps = Except.ok filtered) :
    sourcesNeedingCompilation hashFn fs ps =
      Except.ok (unionP (refLoop fs ps (dedupP filtered) (dedupP filtered) []).1
        (refLoop fs ps (dedupP filtered) (dedupP filtered) []).2) := by
  unfold sourcesNeedingCompilation
  rw [hf]

/-- A successful `sources_needing_compilation` run presupposes a successful
change-detection pass. -/
theorem sourcesNeedingCompilation_ok (hashFn : String → String → String) (fs : FS)
    (ps : ProjectSources) (res : List FPath)
    (hres : sourcesNeedingCompilation hashFn fs ps = Except.ok res) :
    ∃ filtered, initialChangedSources hashFn fs ps = Except.ok filtered := by
  unfold sourcesNeedingCompilation at hres
  split at hres
  · exact Except.noConfusion hres
  · rename_i filtered hf
    exact ⟨filtered, hf⟩

/-- Membership in the compilation set: exactly the initially changed paths
plus the on-disk reference paths of the initially changed paths. -/
theorem mem_compilation_set_iff (hashFn : String → String → String) (fs : FS)
    (ps : ProjectSources) (filtered res : List FPath) (x : FPath)
    (hf : initialChangedSources hashFn fs ps = Except.ok filtered)
    (hres : sourcesNeedingCompilation hashFn fs ps = Except.ok res) :
    x ∈ res ↔ x ∈ filtered ∨ ∃ q ∈ filtered,
      x ∈ get_source_reference_paths fs ps (get_relative_path q ps.contracts_folder) := by
  have he := sourcesNeedingCompilation_eq hashFn fs ps filtered hf
  rw [hres] at he
  simp only [Except.ok.injEq] at he
  subst he
  rw [mem_unionP, mem_refLoop_fst, mem_refLoop_snd]
  constructor
  · rintro ((h | ⟨q, hq, hx⟩) | (h | ⟨q, hq, hx⟩))
    · exact Or.inl ((mem_dedupP filtered x).mp h)
    · exact Or.inr ⟨q, (mem_dedupP filtered q).mp hq, hx⟩
    · exact absurd h (List.not_mem_nil x)
    · exact Or.inr ⟨q, (mem_dedupP filtered q).mp hq, hx⟩
  · rintro (h | ⟨q, hq, hx⟩)
    · exact Or.inl (Or.inl ((mem_dedupP filtered x).mpr h))
    · exact Or.inl (Or.inr ⟨q, (mem_dedupP filtered q).mpr hq, hx⟩)

/-- An element of a dict after a single assignment comes from the original
dict or is the assigned entry. -/
theorem mem_setKey {α : Type} (l : List (String × α)) (kv x : String × α)
    (h : x ∈ setKey l kv) : x ∈ l ∨ x = kv := by
  unfold setKey at h
  split at h
  · rcases List.mem_map.mp h with ⟨y, hy, hxy⟩
    by_cases hk : y.1 = kv.1
    · rw [if_pos hk] at hxy
      exact Or.inr hxy.symm
    · rw [if_neg hk] at hxy
      rw [← hxy]
      exact Or.inl hy
  · rcases List.mem_append.mp h with h1 | h1
    · exact Or.inl h1
    · exact Or.inr (List.mem_singleton.mp h1)

/-- The assigned entry is present after a dict assignment. -/
theorem setKey_self {α : Type} (l : List (String × α)) (kv : String × α) :
    kv ∈ setKey l kv := by
  unfold setKey
  split
  · rename_i hmem
    rcases List.mem_map.mp hmem with ⟨y, hy, hxy⟩
    exact List.mem_map.mpr ⟨y, hy, by rw [if_pos hxy]⟩
  · exact List.mem_append.mpr (Or.inr (List.mem_singleton.mpr rfl))

/-- A dict entry with a different key survives an assignment unchanged. -/
theorem mem_setKey_of_ne {α : Type} (l : List (String × α)) (kv x : String × α)
    (hx : x ∈ l) (hne : x.1 ≠ kv.1) : x ∈ setKey l kv := by
  unfold setKey
  split
  · exact List.mem_map.mpr ⟨x, hx, by rw [if_neg hne]⟩
  · exact List.mem_append.mpr (Or.inl hx)

/-- An element of a dict after `dict.update` comes from the base dict or
from the update. -/
theorem mem_updateA {α : Type} (upd : List (String × α)) :
    ∀ (base : List (String × α)) (x : String × α),
      x ∈ updateA base upd → x ∈ base ∨ x ∈ upd := by
  induction upd with
  | nil => intro base x h; exact Or.inl h
  | cons kv rest ih =>
    intro base x h
    rcases ih (setKey base kv) x h with h1 | h1
    · rcases mem_setKey base kv x h1 with h2 | h2
      · exact Or.inl h2
      · rw [h2]
        exact Or.inr (List.mem_cons_self kv rest)
    · exact Or.inr (List.mem_cons_of_mem kv h1)

/-- A base entry whose key the update never assigns survives `dict.update`. -/
theorem mem_updateA_notKey {α : Type} (upd : List (String × α)) :
    ∀ (base : List (String × α)) (x : String × α),
      x ∈ base → x.1 ∉ upd.map Prod.fst → x ∈ updateA base upd := by
  induction upd with
  | nil => intro base x hx _; exact hx
  | cons kv rest ih =>
    intro base x hx hk
    simp only [List.map_cons, List.mem_cons, not_or] at hk
    exact ih (setKey base kv) x (mem_setKey_of_ne base kv x hx hk.1) hk.2

/-- Every entry of a duplicate-free update is present after `dict.update`. -/
theorem mem_updateA_of_mem {α : Type} (upd : List (String × α)) :
    ∀ (base : List (String × α)) (x : String × α),
      (upd.map Prod.fst).Nodup → x ∈ upd → x ∈ updateA base upd := by
  induction upd with
  | nil => intro base x _ hx; exact absurd hx (List.not_mem_nil x)
  | cons kv rest ih =>
    intro base x hnodup hx
    simp only [List.map_cons, List.nodup_cons] at hnodup
    rcases List.mem_cons.mp hx with rfl | hx2
    · exact mem_updateA_notKey rest (setKey base x) x (setKey_self base x) hnodup.1
    · exact ih (setKey base kv) x hnodup.2 hx2

/-- An artifact surviving the deleted-source pruning was a cached artifact. -/
theorem mem_remaining_sub (ps : ProjectSources) (x : String × ContractType)
    (h : x ∈ remaining_cached_contract_types ps) :
    x ∈ ps.cached_manifest.contract_types.getD [] :=
  (List.mem_filter.mp h).1

/-- Unfolding of a successful `create_manifest` run. -/
theorem create_manifest_eq (hashFn : String → String → String) (fs : FS)
    (compileFn : List FPath → List (String × ContractType))
    (manifest : PackageManifest) (source_paths : List FPath) (folder : String)
    (srcs : List FPath)
    (hsrcs : sourcesNeedingCompilation hashFn fs
      (ProjectSources.mk manifest source_paths folder) = Except.ok srcs) :
    create_manifest hashFn fs compileFn manifest source_paths folder =
      Except.ok (update_manifest_sources hashFn fs manifest source_paths folder
        (updateA (remaining_cached_contract_types
            (ProjectSources.mk manifest source_paths folder))
          (compileFn srcs))) := by
  unfold create_manifest
  rw [hsrcs]

/-- The source-id domain of the manifest returned by
`update_manifest_sources` is exactly the source ids of the given paths. -/
theorem update_manifest_sources_source_ids (hashFn : String → String → String) (fs : FS)
    (manifest : PackageManifest) (source_paths : List FPath) (folder : String)
    (cts : List (String × ContractType)) :
    ((update_manifest_sources hashFn fs manifest source_paths folder cts).sources.getD []).map
        Prod.fst
      = source_paths.map (fun p => get_relative_path p folder) := by
  simp only [update_manifest_sources, Option.getD_some, List.map_map]
  rfl

/-- The artifact map of the manifest returned by `update_manifest_sources`
is the given artifact map. -/
theorem update_manifest_sources_contract_types (hashFn : String → String → String) (fs : FS)
    (manifest : PackageManifest) (source_paths : List FPath) (folder : String)
    (cts : List (String × ContractType)) :
    (update_manifest_sources hashFn fs manifest source_paths folder cts).contract_types.getD []
      = cts :=
  rfl

/-- Claim C3: for a path whose source id is cached, the change detector
normalizes the file content (strip trailing whitespace, then append exactly
one newline iff the stripped content is non-empty, so an empty file
normalizes to the empty string), computes the checksum with the algorithm
stored in the cached record, and reports a change exactly when that checksum
differs from the stored hash; a file containing the word foo followed by a
trailing space and no newline normalizes to foo plus one newline. -/
theorem check_needs_compiling_normalizes
    (hashFn : String → String → String) (fs : FS) (ps : ProjectSources)
    (source_path : FPath) (src : Source) (raw : String)
    (h1 : lookupA (cachedSources ps) (get_relative_path source_path ps.contracts_folder)
      = some src)
    (h2 : fs.read source_path = some raw) :
    checkNeedsCompiling hashFn fs ps source_path
      = Except.ok (hashFn src.checksum.algorithm (pyNormalize raw) != src.checksum.hash)
    ∧ pyNormalize "foo " = "foo\n" ∧ pyNormalize "" = "" := by
  refine ⟨?_, by decide, by decide⟩
  unfold checkNeedsCompiling
  rw [h1, h2]
  rfl

/-- Witness for claim C3: with the checksum collaborator instantiated to the
identity on content, a cached record whose stored hash is the normalized
content (foo plus newline) judges a file containing foo plus a trailing
space, without newline, as unchanged. -/
theorem check_needs_compiling_normalizes_witness :
    checkNeedsCompiling exHash fsFoo psFoo pF = Except.ok false :=
  (check_needs_compiling_normalizes exHash fsFoo psFoo pF srcFoo "foo " rfl rfl).1.trans rfl

/-- Claim C4: an active source path whose source id is absent from the
cached manifest's source map is classified as needing compilation and
appears in the compilation set, whatever the filesystem holds. -/
theorem new_file_in_compilation_set
    (hashFn : String → String → String) (fs : FS) (ps : ProjectSources)
    (source_path : FPath) (res : List FPath)
    (hactive : source_path ∈ ps.active_sources)
    (hnew : lookupA (cachedSources ps) (get_relative_path source_path ps.contracts_folder)
      = none)
    (hres : sourcesNeedingCompilation hashFn fs ps = Except.ok res) :
    checkNeedsCompiling hashFn fs ps source_path = Except.ok true ∧ source_path ∈ res := by
  have hcheck : checkNeedsCompiling hashFn fs ps source_path = Except.ok true := by
    unfold checkNeedsCompiling
    rw [hnew]
  refine ⟨hcheck, ?_⟩
  rcases sourcesNeedingCompilation_ok hashFn fs ps res hres with ⟨filtered, hf⟩
  have hmem : source_path ∈ filtered :=
    (exceptFilter_ok_iff (checkNeedsCompiling hashFn fs ps) ps.active_sources filtered hf
      source_path).mpr ⟨hactive, hcheck⟩
  exact (mem_compilation_set_iff hashFn fs ps filtered res source_path hf hres).mpr
    (Or.inl hmem)

/-- Witness for claim C4: the new file `N.src` is classified as needing
compilation and lands in the compilation set even on a filesystem where
every read fails. -/
theorem new_file_in_compilation_set_witness :
    checkNeedsCompiling exHash fsN psN pN = Except.ok true ∧ pN ∈ ([pN] : List FPath) :=
  new_file_in_compilation_set exHash fsN psN pN [pN] (by decide) rfl rfl

/-- Claim C9: for a source id absent from the cached manifest, the change
detector answers true for every checksum collaborator and every filesystem,
in particular for one on which every read fails, so the I/O-error branch is
unreachable for new files. -/
theorem new_file_never_reads (ps : ProjectSources) (source_path : FPath)
    (hnew : lookupA (cachedSources ps) (get_relative_path source_path ps.contracts_folder)
      = none) :
    ∀ (hashFn : String → String → String) (fs : FS),
      checkNeedsCompiling hashFn fs ps source_path = Except.ok true := by
  intro hashFn fs
  unfold checkNeedsCompiling
  rw [hnew]

/-- Witness for claim C9: the unreadable new file `N.src` is classified as
needing compilation without an error. -/
theorem new_file_never_reads_witness :
    checkNeedsCompiling exHash fsN psN pN = Except.ok true :=
  new_file_never_reads psN pN rfl exHash fsN

/-- Claim C8: for a path whose source id is cached but whose file cannot be
read, the change detector propagates the I/O error instead of returning a
boolean. -/
theorem unreadable_cached_file_errors
    (hashFn : String → String → String) (fs : FS) (ps : ProjectSources)
    (source_path : FPath) (src : Source)
    (hcached : lookupA (cachedSources ps) (get_relative_path source_path ps.contracts_folder)
      = some src)
    (hread : fs.read source_path = none) :
    checkNeedsCompiling hashFn fs ps source_path = Except.error () := by
  unfold checkNeedsCompiling
  rw [hcached, hread]

/-- Witness for claim C8: the cached but unreadable file `U.src` makes the
change detector raise. -/
theorem unreadable_cached_file_errors_witness :
    checkNeedsCompiling exHash fsN psU pU = Except.error () :=
  unreadable_cached_file_errors exHash fsN psU pU (Source.mk (Checksum.mk "md5" "u\n") none)
    rfl rfl

/-- Claim C10: a cached contract type with no originating source id is never
removed by the deleted-source pruning, whatever the active source set is. -/
theorem sourceless_artifacts_retained (ps : ProjectSources) (nc : String × ContractType)
    (hmem : nc ∈ ps.cached_manifest.contract_types.getD [])
    (hnone : nc.2.source_id = none) :
    nc ∈ remaining_cached_contract_types ps := by
  unfold remaining_cached_contract_types
  refine List.mem_filter.mpr ⟨hmem, ?_⟩
  rw [hnone]
  rfl

/-- Witness for claim C10: the artifact `CI`, which has no originating
source, survives the pruning of the deletion scenario. -/
theorem sourceless_artifacts_retained_witness :
    ("CI", ContractType.mk "CI" none) ∈ remaining_cached_contract_types psDel :=
  sourceless_artifacts_retained psDel ("CI", ContractType.mk "CI" none) (by decide) rfl

/-- Claim C6: with the cyclic cached edges A to B and B to A, both files on
disk and only A changed, the expansion terminates (the loop is structural
recursion on a queue that never grows) and returns exactly the two distinct
paths A and B. -/
theorem cyclic_reference_expansion_terminates :
    sourcesNeedingCompilation exHash fsCyc psCyc = Except.ok [pA, pB] ∧ pA ≠ pB :=
  ⟨rfl, by decide⟩

/-- Counterexample to claim C1 as stated: with the cached edges A to B and
B to C, all three files existing on disk and only A changed, the compilation
set is exactly the two paths A and B — C is not pulled in, because the work
queue of lines 57-64 of types.py never receives the referenced paths, so
the expansion is one hop deep, not a transitive closure. -/
theorem reference_closure_not_transitive_cex :
    initialChangedSources exHash fsABC psABC = Except.ok [pA] ∧
    fsABC.is_file pC = true ∧
    sourcesNeedingCompilation exHash fsABC psABC = Except.ok [pA, pB] ∧
    pC ∉ ([pA, pB] : List FPath) :=
  ⟨rfl, rfl, rfl, by decide⟩

/-- Claim C1 as amended: the compilation set is the union of the initially
changed set and the one-step reference paths (restricted to paths existing
on disk) of the initially changed paths; referenced paths are never
themselves expanded, so with edges A to B and B to C and only A changed the
set is A and B, without C. -/
theorem sources_needing_compilation_one_hop
    (hashFn : String → String → String) (fs : FS) (ps : ProjectSources)
    (changed res : List FPath) (x : FPath)
    (hchanged : initialChangedSources hashFn fs ps = Except.ok changed)
    (hres : sourcesNeedingCompilation hashFn fs ps = Except.ok res) :
    x ∈ res ↔ x ∈ changed ∨ ∃ q ∈ changed,
      x ∈ get_source_reference_paths fs ps (get_relative_path q ps.contracts_folder) :=
  mem_compilation_set_iff hashFn fs ps changed res x hchanged hres

/-- Witness for the amended claim C1: in the A, B, C scenario the path C is
not in the compilation set, by the one-hop characterization. -/
theorem sources_needing_compilation_one_hop_witness :
    pC ∉ ([pA, pB] : List FPath) := by
  intro hc
  have h := sources_needing_compilation_one_hop exHash fsABC psABC [pA] [pA, pB] pC rfl rfl
  rcases h.mp hc with h1 | ⟨q, hq, hx⟩
  · exact absurd h1 (by decide)
  · rw [List.mem_singleton] at hq
    subst hq
    exact absurd hx (by decide)

/-- Claim C7: a reference path that does not exist on disk is silently
skipped — it never appears in a returned reference-path list nor in the
compilation set, and the expansion never raises once change detection
succeeded. -/
theorem dangling_reference_skipped
    (hashFn : String → String → String) (fs : FS) (ps : ProjectSources)
    (filtered : List FPath) (p : FPath)
    (hf : initialChangedSources hashFn fs ps = Except.ok filtered)
    (hnofile : fs.is_file p = false)
    (hnactive : p ∉ ps.active_sources) :
    (∀ source_id, p ∉ get_source_reference_paths fs ps source_id) ∧
    (∀ res, sourcesNeedingCompilation hashFn fs ps = Except.ok res → p ∉ res) ∧
    (∀ e, sourcesNeedingCompilation hashFn fs ps ≠ Except.error e) := by
  have hrefs : ∀ source_id, p ∉ get_source_reference_paths fs ps source_id := by
    intro sid hin
    have hfile := (List.mem_filter.mp hin).2
    rw [hnofile] at hfile
    exact Bool.noConfusion hfile
  refine ⟨hrefs, ?_, ?_⟩
  · intro res hres hin
    rcases (mem_compilation_set_iff hashFn fs ps filtered res p hf hres).mp hin with
      h1 | ⟨q, hq, hx⟩
    · have := (exceptFilter_ok_iff (checkNeedsCompiling hashFn fs ps) ps.active_sources
        filtered hf p).mp h1
      exact hnactive this.1
    · exact hrefs _ hx
  · intro e he
    have hok := sourcesNeedingCompilation_eq hashFn fs ps filtered hf
    rw [he] at hok
    exact Except.noConfusion hok

/-- Witness for claim C7: in the dangling-reference scenario (C deleted from
disk while the cached edge B to C remains), the path C is in no returned
reference-path list, is not in the compilation set, and no error is
raised. -/
theorem dangling_reference_skipped_witness :
    pC ∉ get_source_reference_paths fsDang psDang "A.src" ∧
    pC ∉ ([pA, pB] : List FPath) ∧
    sourcesNeedingCompilation exHash fsDang psDang ≠ Except.error () := by
  have h := dangling_reference_skipped exHash fsDang psDang [pA] pC rfl rfl (by decide)
  exact ⟨h.1 "A.src", h.2.1 [pA, pB] rfl, h.2.2 ()⟩

/-- Claim C5: a cached source id that is no longer among the active sources
is a deleted source, and every cached contract type carrying that source id
is dropped from the working artifact map and absent from the manifest
returned by `create_manifest`, provided the compile collaborator does not
produce artifacts claiming the deleted id (the compilation set contains
only on-disk paths). -/
theorem deleted_source_artifacts_dropped
    (hashFn : String → String → String) (fs : FS)
    (compileFn : List FPath → List (String × ContractType))
    (ps : ProjectSources) (nc : String × ContractType) (sid : String) (srcs : List FPath)
    (hmem : nc ∈ ps.cached_manifest.contract_types.getD [])
    (hsid : nc.2.source_id = some sid)
    (hcached : sid ∈ (cachedSources ps).map Prod.fst)
    (hgone : sid ∉ activeSourceIds ps)
    (hsrcs : sourcesNeedingCompilation hashFn fs ps = Except.ok srcs)
    (hfresh : ∀ x ∈ compileFn srcs, x.2.source_id ≠ some sid) :
    nc ∉ remaining_cached_contract_types ps ∧
    ∀ m, create_manifest hashFn fs compileFn ps.cached_manifest ps.active_sources
        ps.contracts_folder = Except.ok m →
      nc ∉ m.contract_types.getD [] := by
  have hdel : sid ∈ deletedSourceIds ps := by
    unfold deletedSourceIds
    refine List.mem_filter.mpr ⟨hcached, ?_⟩
    rw [decide_eq_false hgone]
    rfl
  have hnot : nc ∉ remaining_cached_contract_types ps := by
    intro hin
    have hkeep := (List.mem_filter.mp hin).2
    rw [hsid] at hkeep
    simp only [optMem] at hkeep
    rw [decide_eq_true hdel] at hkeep
    exact Bool.noConfusion hkeep
  refine ⟨hnot, ?_⟩
  intro m hm hin
  have hcm := create_manifest_eq hashFn fs compileFn ps.cached_manifest ps.active_sources
    ps.contracts_folder srcs hsrcs
  rw [hm] at hcm
  simp only [Except.ok.injEq] at hcm
  subst hcm
  rw [update_manifest_sources_contract_types] at hin
  rcases mem_updateA (compileFn srcs) (remaining_cached_contract_types ps) nc hin with
    h1 | h1
  · exact hnot h1
  · exact hfresh nc h1 hsid

/-- Witness for claim C5: in the deletion scenario the cached artifact `CD`
of the deleted source `D.src` is dropped from the working artifact map and
absent from the returned manifest. -/
theorem deleted_source_artifacts_dropped_witness :
    ("CD", ContractType.mk "CD" (some "D.src")) ∉ remaining_cached_contract_types psDel ∧
    ("CD", ContractType.mk "CD" (some "D.src")) ∉ mDel.contract_types.getD [] := by
  have h := deleted_source_artifacts_dropped exHash fsDel compileNone psDel
    ("CD", ContractType.mk "CD" (some "D.src")) "D.src" [] (by decide) rfl (by decide)
    (by decide) rfl (by intro x hx; exact absurd hx (List.not_mem_nil x))
  exact ⟨h.1, h.2 mDel rfl⟩

/-- Counterexample to claim C2 as stated: in the partial-failure scenario
(both A and B need compiling, the collaborator returns an artifact for A
only), the manifest returned by `create_manifest` still contains a source
entry for B, because `update_manifest_sources` is invoked with every active
source path regardless of compile success — so it is false that the
manifest retains no entry at all for B. -/
theorem partial_failure_fresh_entry_cex :
    sourcesNeedingCompilation exHash fsPart psPart = Except.ok [pA, pB] ∧
    compilePart [pA, pB] = [("CA", ctCA)] ∧
    manifestHasSourceEntry (create_manifest exHash fsPart compilePart manPart [pA, pB] "proj")
      "B.src" = true :=
  ⟨rfl, rfl, rfl⟩

/-- Claim C2 as amended: when the compile collaborator returns artifacts for
A but none for B, the returned manifest holds the fresh artifact entry for A
and no artifact entry for B (given no cached artifact claimed B either), but
the source map is refreshed for every active path — both A's and B's source
ids receive entries — so the failed source B is not left absent and the next
build does not retry it. -/
theorem create_manifest_partial_failure
    (hashFn : String → String → String) (fs : FS)
    (compileFn : List FPath → List (String × ContractType))
    (manifest : PackageManifest) (source_paths : List FPath) (folder : String)
    (pathA pathB : FPath) (srcs : List FPath) (m : PackageManifest)
    (nA : String) (ctA : ContractType)
    (hA : pathA ∈ source_paths) (hB : pathB ∈ source_paths)
    (hsrcs : sourcesNeedingCompilation hashFn fs
      (ProjectSources.mk manifest source_paths folder) = Except.ok srcs)
    (hm : create_manifest hashFn fs compileFn manifest source_paths folder = Except.ok m)
    (hAin : (nA, ctA) ∈ compileFn srcs)
    (hnodup : ((compileFn srcs).map Prod.fst).Nodup)
    (hcachedB : ∀ x ∈ manifest.contract_types.getD [],
      x.2.source_id ≠ some (get_relative_path pathB folder))
    (hcompiledB : ∀ x ∈ compileFn srcs,
      x.2.source_id ≠ some (get_relative_path pathB folder)) :
    get_relative_path pathA folder ∈ (m.sources.getD []).map Prod.fst ∧
    get_relative_path pathB folder ∈ (m.sources.getD []).map Prod.fst ∧
    (nA, ctA) ∈ m.contract_types.getD [] ∧
    ∀ x ∈ m.contract_types.getD [],
      x.2.source_id ≠ some (get_relative_path pathB folder) := by
  have hcm := create_manifest_eq hashFn fs compileFn manifest source_paths folder srcs hsrcs
  rw [hm] at hcm
  simp only [Except.ok.injEq] at hcm
  subst hcm
  refine ⟨?_, ?_, ?_, ?_⟩
  · rw [update_manifest_sources_source_ids]
    exact List.mem_map.mpr ⟨pathA, hA, rfl⟩
  · rw [update_manifest_sources_source_ids]
    exact List.mem_map.mpr ⟨pathB, hB, rfl⟩
  · rw [update_manifest_sources_contract_types]
    exact mem_updateA_of_mem (compileFn srcs)
      (remaining_cached_contract_types (ProjectSources.mk manifest source_paths folder))
      (nA, ctA) hnodup hAin
  · intro x hx
    rw [update_manifest_sources_contract_types] at hx
    rcases mem_updateA (compileFn srcs)
      (remaining_cached_contract_types (ProjectSources.mk manifest source_paths folder))
      x hx with h1 | h1
    · exact hcachedB x
        (mem_remaining_sub (ProjectSources.mk manifest source_paths folder) x h1)
    · exact hcompiledB x h1

/-- Witness for the amended claim C2: in the partial-failure scenario the
returned manifest has source entries for both `A.src` and `B.src`, holds the
fresh artifact `CA`, and holds no artifact originating from `B.src`. -/
theorem create_manifest_partial_failure_witness :
    ("A.src" : String) ∈ (mPart.sources.getD []).map Prod.fst ∧
    ("B.src" : String) ∈ (mPart.sources.getD []).map Prod.fst ∧
    ("CA", ctCA) ∈ mPart.contract_types.getD [] ∧
    ctCA.source_id ≠ some "B.src" := by
  have h := create_manifest_partial_failure exHash fsPart compilePart manPart [pA, pB] "proj"
    pA pB [pA, pB] mPart "CA" ctCA (by decide) (by decide) rfl rfl (by decide) (by decide)
    (by intro x hx; exact absurd hx (List.not_mem_nil x)) (by decide)
  exact ⟨h.1, h.2.1, h.2.2.1, h.2.2.2 ("CA", ctCA) h.2.2.1⟩
